import Mathlib

/-!
Verification development for the recur-scan feature extraction engine
(src/recur_scan/features.py).  Every Python function of the source file is
shallowly embedded below.  Python floats are modelled as exact rationals,
Python exceptions as an explicit `Except PyError` result, and calendar
dates as proleptic Gregorian (year, month, day) triples with a rata-die
day number for date arithmetic.
-/

deriving instance DecidableEq for Except

namespace RecurScan

/-- Kinds of Python runtime errors the source can in principle raise:
a date that `strptime` rejects, `statistics.mean`/`stdev` on an
undersized list, `min`/`max` on an empty list, an out-of-range list
subscript, and division by zero. -/
inductive PyError where
  | dateFormatError
  | statisticsError
  | valueError
  | indexError
  | zeroDivisionError
deriving DecidableEq, Repr

/-- Feature values: Python int, float (modelled as an exact rational) or str. -/
inductive FVal where
  | i : Int → FVal
  | q : Rat → FVal
  | s : String → FVal
deriving DecidableEq, Repr

/-- The Transaction record (src/recur_scan/transactions.py): id, user_id,
name, amount, date (a raw "YYYY-MM-DD" string). -/
structure Transaction where
  id : String
  user_id : String
  name : String
  amount : Rat
  date : String
deriving DecidableEq, Repr

/-- A parsed calendar date. -/
structure Date where
  year : Nat
  month : Nat
  day : Nat
deriving DecidableEq, Repr

/-- Gregorian leap-year rule. -/
def isLeapYear (y : Nat) : Bool :=
  y % 4 == 0 && (y % 100 != 0 || y % 400 == 0)

/-- Number of days in a month of a given year. -/
def daysInMonth (y m : Nat) : Nat :=
  if m = 2 then (if isLeapYear y then 29 else 28)
  else if m = 4 ∨ m = 6 ∨ m = 9 ∨ m = 11 then 30
  else 31

/-- Decimal digits to a natural number. -/
def digitsToNat (cs : List Char) : Nat :=
  cs.foldl (fun acc c => acc * 10 + (c.toNat - 48)) 0

/-- Split a character list at the character "-" (models str.split("-")). -/
def splitDash : List Char → List (List Char)
  | [] => [[]]
  | c :: cs =>
    if c = '-' then [] :: splitDash cs
    else
      match splitDash cs with
      | [] => [[c]]
      | g :: gs => (c :: g) :: gs

/-- Models datetime.datetime.strptime(s, "%Y-%m-%d"): a four-digit year,
a one- or two-digit month and day, all within calendar range; any other
string raises, modelled as none. -/
def parseDate (s : String) : Option Date :=
  match splitDash s.data with
  | [yc, mc, dc] =>
    if yc.length = 4 ∧ yc.all Char.isDigit = true
        ∧ 1 ≤ mc.length ∧ mc.length ≤ 2 ∧ mc.all Char.isDigit = true
        ∧ 1 ≤ dc.length ∧ dc.length ≤ 2 ∧ dc.all Char.isDigit = true then
      let y := digitsToNat yc
      let m := digitsToNat mc
      let d := digitsToNat dc
      if 1 ≤ y ∧ 1 ≤ m ∧ m ≤ 12 ∧ 1 ≤ d ∧ d ≤ daysInMonth y m then
        some ⟨y, m, d⟩
      else none
    else none
  | _ => none

/-- Days in the months of year y strictly before month m. -/
def daysBeforeMonth (y m : Nat) : Nat :=
  ((List.range (m - 1)).map (fun i => daysInMonth y (i + 1))).sum

/-- One-based ordinal of the date within its year. -/
def dayOfYear (dt : Date) : Nat :=
  daysBeforeMonth dt.year dt.month + dt.day

/-- Proleptic Gregorian day number (0001-01-01 is day 1); differences of
day numbers model (d2 - d1).days on datetime values. -/
def rataDie (dt : Date) : Int :=
  let y := dt.year - 1
  ((365 * y + y / 4 - y / 100 + y / 400 + dayOfYear dt : Nat) : Int)

/-- Python weekday(): Monday = 0 .. Sunday = 6. -/
def weekday (dt : Date) : Nat :=
  ((rataDie dt - 1) % 7).toNat

/-- Number of ISO weeks in a year: 53 when Jan 1 falls on a Thursday, or
on a Wednesday of a leap year; else 52. -/
def weeksInISOYear (y : Nat) : Nat :=
  let jan1wd := weekday ⟨y, 1, 1⟩
  if jan1wd = 3 ∨ (isLeapYear y = true ∧ jan1wd = 2) then 53 else 52

/-- ISO week number, models date.isocalendar()[1]. -/
def isoWeek (dt : Date) : Nat :=
  let w := (dayOfYear dt + 10 - (weekday dt + 1)) / 7
  if w = 0 then weeksInISOYear (dt.year - 1)
  else if w > weeksInISOYear dt.year then 1
  else w

/-- Rational square root, exact on perfect squares; models math-level
square roots in the source (every use in the claims below is at a
perfect-square argument). -/
def sqrtQ (x : Rat) : Rat :=
  (Int.sqrt x.num : Rat) / (Nat.sqrt x.den : Rat)

/-- Python int(x): truncation toward zero. -/
def truncInt (q : Rat) : Int :=
  if 0 ≤ q then ⌊q⌋ else ⌈q⌉

/-- Round a rational to the nearest integer, ties to even: the rounding of
an IEEE binary64 mantissa. -/
def roundHalfEven (r : Rat) : Int :=
  let f := ⌊r⌋
  let frac := r - (f : Rat)
  if frac < 1 / 2 then f
  else if 1 / 2 < frac then f + 1
  else if f % 2 = 0 then f else f + 1

/-- Scale a positive rational by powers of two into [2^52, 2^53), returning
the exponent shift applied; the fuel of 2200 steps covers the whole finite
binary64 range. -/
def scaleToRange : Nat → Rat → Int → Int
  | 0, _, s => s
  | fuel + 1, q, s =>
    if q < (4503599627370496 : Rat) then scaleToRange fuel (q * 2) (s + 1)
    else if (9007199254740992 : Rat) ≤ q then scaleToRange fuel (q / 2) (s - 1)
    else s

/-- The IEEE-754 binary64 value nearest a rational, as an exact rational:
round to nearest, ties to even, with the subnormal cutoff 2^-1074.  This is
the double the program holds for an amount or numeric literal written in
decimal (finite range only; transaction amounts lie far inside it). -/
def roundB64 (q : Rat) : Rat :=
  if q = 0 then 0
  else
    let sign : Rat := if q < 0 then -1 else 1
    let a := |q|
    let s := scaleToRange 2200 a 0
    let s2 := if 1074 < s then (1074 : Int) else s
    let m := roundHalfEven (a * (2 : Rat) ^ s2)
    sign * (m : Rat) * ((2 : Rat) ^ (-s2))

/-- The value the program computes for amt - int(amt) under binary64
arithmetic: amt is held as its nearest double, int() truncates it exactly,
and the subtraction rounds the exact difference to the nearest double. -/
def fracPartFloat (amt : Rat) : Rat :=
  roundB64 (roundB64 amt - (truncInt (roundB64 amt) : Rat))

/-- Python int(bool). -/
def bint (b : Bool) : Int := if b then 1 else 0

/-- Python "p in text" for strings: p starts some suffix of text. -/
def startsWithChars : List Char → List Char → Bool
  | [], _ => true
  | _ :: _, [] => false
  | p :: ps, c :: cs => p == c && startsWithChars ps cs

/-- Auxiliary scan for substring containment. -/
def containsChars (p : List Char) : List Char → Bool
  | [] => p.isEmpty
  | c :: cs => startsWithChars p (c :: cs) || containsChars p cs

/-- Substring test: pat occurs inside text (models Python "pat in text"). -/
def strContainsSub (text pat : String) : Bool :=
  containsChars pat.data text.data

/-- ASCII lower-casing, models str.lower(). -/
def lowerStr (s : String) : String := ⟨s.data.map Char.toLower⟩

/-- Python min over a list (defaults to 0 on []; the source only applies
min to lists checked non-empty, the empty case is a ValueError below). -/
def listMinI (l : List Int) : Int :=
  match l with
  | [] => 0
  | x :: xs => xs.foldl min x

/-- Python max over a list of integers. -/
def listMaxI (l : List Int) : Int :=
  match l with
  | [] => 0
  | x :: xs => xs.foldl max x

/-- Python min over a list of rationals. -/
def listMinQ (l : List Rat) : Rat :=
  match l with
  | [] => 0
  | x :: xs => xs.foldl min x

/-- Python max over a list of rationals. -/
def listMaxQ (l : List Rat) : Rat :=
  match l with
  | [] => 0
  | x :: xs => xs.foldl max x

/-- statistics.mean, raising StatisticsError on an empty list. -/
def meanE (xs : List Rat) : Except PyError Rat :=
  if xs.length = 0 then .error .statisticsError
  else .ok (xs.sum / (xs.length : Rat))

/-- statistics.stdev (sample standard deviation), raising on < 2 points. -/
def stdevE (xs : List Rat) : Except PyError Rat :=
  if xs.length < 2 then .error .statisticsError
  else
    let m := xs.sum / (xs.length : Rat)
    .ok (sqrtQ ((xs.map (fun x => (x - m) ^ 2)).sum / ((xs.length : Rat) - 1)))

/-- Python min(), raising ValueError on an empty list. -/
def minE (l : List Int) : Except PyError Int :=
  match l with
  | [] => .error .valueError
  | x :: xs => .ok (xs.foldl min x)

/-- Python max(), raising ValueError on an empty list. -/
def maxE (l : List Int) : Except PyError Int :=
  match l with
  | [] => .error .valueError
  | x :: xs => .ok (xs.foldl max x)

/-- Python min() on rationals. -/
def minQE (l : List Rat) : Except PyError Rat :=
  match l with
  | [] => .error .valueError
  | x :: xs => .ok (xs.foldl min x)

/-- Python max() on rationals. -/
def maxQE (l : List Rat) : Except PyError Rat :=
  match l with
  | [] => .error .valueError
  | x :: xs => .ok (xs.foldl max x)

/-- Python division, raising ZeroDivisionError on a zero divisor. -/
def divE (a b : Rat) : Except PyError Rat :=
  if b = 0 then .error .zeroDivisionError else .ok (a / b)

/-- Python list subscript with negative-index support, raising IndexError
when out of range. -/
def pyIndex (xs : List Date) (i : Int) : Except PyError Date :=
  let j := if i < 0 then (xs.length : Int) + i else i
  if 0 ≤ j ∧ j.toNat < xs.length then .ok (xs.getD j.toNat ⟨0, 0, 0⟩)
  else .error .indexError

/-- Stable insertion into a date list sorted by day number. -/
def insertSorted (d : Date) : List Date → List Date
  | [] => [d]
  | e :: es => if rataDie d ≤ rataDie e then d :: e :: es else e :: insertSorted d es

/-- sorted() on parsed dates (datetime values order by day number). -/
def sortDates (ds : List Date) : List Date :=
  ds.foldr insertSorted []

/-- Parse the date of every transaction of a list; the first failure
models the ValueError strptime raises inside a list comprehension. -/
def parseDatesE : List Transaction → Except PyError (List Date)
  | [] => .ok []
  | t :: ts =>
    match parseDate t.date, parseDatesE ts with
    | some d, .ok ds => .ok (d :: ds)
    | none, _ => .error .dateFormatError
    | some _, .error e => .error e

/-- Consecutive day gaps of a date list (the date_diffs comprehension). -/
def dateDiffs : List Date → List Int
  | [] => []
  | [_] => []
  | a :: b :: rest => (rataDie b - rataDie a) :: dateDiffs (b :: rest)

/-- The history filter used by nearly every analyzer: the transactions
whose name equals the current transaction name exactly. -/
def merchantOf (t : Transaction) (all : List Transaction) : List Transaction :=
  all.filter (fun x => x.name == t.name)

/-- get_n_transactions_same_amount: count of history entries with the
same amount. -/
def get_n_transactions_same_amount (t : Transaction) (all : List Transaction) : Int :=
  ((all.filter (fun x => x.amount == t.amount)).length : Int)

/-- get_percent_transactions_same_amount: that count over the history
size, 0.0 for an empty history. -/
def get_percent_transactions_same_amount (t : Transaction) (all : List Transaction) :
    Except PyError Rat :=
  if all.isEmpty then .ok 0
  else divE ((all.filter (fun x => x.amount == t.amount)).length : Rat) ((all.length : Rat))

/-- The all-zero default record of get_time_based_recurrence_patterns,
returned when fewer than two same-vendor transactions exist. -/
def timeBasedDefault : List (String × FVal) :=
  [("is_biweekly", .i 0),
   ("is_semimonthly", .i 0),
   ("is_monthly", .i 0),
   ("is_bimonthly", .i 0),
   ("is_quarterly", .i 0),
   ("is_annual", .i 0),
   ("avg_days_between_transactions", .q 0),
   ("min_days_between_transactions", .i 0),
   ("max_days_between_transactions", .i 0),
   ("std_days_between_transactions", .q 0)]

/-- get_time_based_recurrence_patterns: cadence flags and gap statistics
over the sorted same-vendor dates. -/
def get_time_based_recurrence_patterns (t : Transaction) (all : List Transaction) :
    Except PyError (List (String × FVal)) :=
  let merchant := merchantOf t all
  if merchant.length < 2 then .ok timeBasedDefault
  else
    match parseDatesE merchant with
    | .error e => .error e
    | .ok ds =>
      let dates := sortDates ds
      let diffs := dateDiffs dates
      match meanE (diffs.map (fun d => ((d : Int) : Rat))), minE diffs, maxE diffs,
            (if 1 < diffs.length then stdevE (diffs.map (fun d => ((d : Int) : Rat)))
             else Except.ok 0) with
      | .ok avg_days, .ok min_days, .ok max_days, .ok std_days =>
        .ok [("is_biweekly", .i (bint (decide (0 < diffs.count 14)))),
             ("is_semimonthly", .i (bint (diffs.any
                (fun d => d == 15 || d == 16 || d == 14 || d == 17)))),
             ("is_monthly", .i (bint (diffs.any (fun d => decide (27 ≤ d ∧ d ≤ 31))))),
             ("is_bimonthly", .i (bint (diffs.any (fun d => decide (55 ≤ d ∧ d ≤ 65))))),
             ("is_quarterly", .i (bint (diffs.any (fun d => decide (85 ≤ d ∧ d ≤ 95))))),
             ("is_annual", .i (bint (diffs.any (fun d => decide (360 ≤ d ∧ d ≤ 370))))),
             ("avg_days_between_transactions", .q avg_days),
             ("min_days_between_transactions", .i min_days),
             ("max_days_between_transactions", .i max_days),
             ("std_days_between_transactions", .q std_days)]
      | .error e, _, _, _ => .error e
      | _, .error e, _, _ => .error e
      | _, _, .error e, _ => .error e
      | _, _, _, .error e => .error e

/-- The fixed always-recurring vendor set of validate_recurring_transaction. -/
def always_recurring_vendors : List String :=
  ["netflix", "spotify", "microsoft", "amazon prime", "at&t", "verizon",
   "spectrum", "geico", "hugo insurance"]

/-- The vendor_specific_rules table: the amount predicate attached to a
vendor, defaulting to true for vendors absent from the table.  The apple
rule "0.98 <= amt - int(amt) <= 0.99" is a comparison of doubles in the
program, so it is modelled through the binary64 rounding roundB64: the
bounds are the doubles the literals denote and the fractional part is the
rounded float difference. -/
def applyVendorRule (vendor : String) (amt : Rat) : Bool :=
  if vendor == "apple" then
    decide (roundB64 0.98 ≤ fracPartFloat amt ∧ fracPartFloat amt ≤ roundB64 0.99)
  else if vendor == "brigit" then amt == 9.99 || amt == 14.99
  else if vendor == "cleo ai" then amt == 3.99 || amt == 6.99
  else if vendor == "credit genie" then amt == 3.49 || amt == 4.99
  else true

/-- validate_recurring_transaction: vendor in the always-recurring set,
or the per-vendor amount rule (permissive default). -/
def validate_recurring_transaction (t : Transaction) : Bool :=
  let vendor_name := lowerStr t.name
  let amount := t.amount
  if always_recurring_vendors.contains vendor_name then true
  else applyVendorRule vendor_name amount

/-- get_vendor_subscription_features: fixed vendor sets and the nested
subscription-tier price table. -/
def get_vendor_subscription_features (t : Transaction) : List (String × FVal) :=
  let vendor_name := lowerStr t.name
  let amount := t.amount
  let major : List String :=
    ["netflix", "spotify", "disney+", "hulu", "amazon prime", "paramount+", "apple music"]
  let telecom : List String :=
    ["at&t", "verizon", "t-mobile", "geico", "progressive", "state farm"]
  let utility : List String :=
    ["duke energy", "con edison", "national grid", "pg&e", "water company", "gas company"]
  let tier : String :=
    if vendor_name == "netflix" then
      if amount == 8.99 then "Basic"
      else if amount == 15.49 then "Standard"
      else if amount == 19.99 then "Premium"
      else "Unknown"
    else if vendor_name == "spotify" then
      if amount == 9.99 then "Individual"
      else if amount == 12.99 then "Duo"
      else if amount == 15.99 then "Family"
      else "Unknown"
    else if vendor_name == "disney+" then
      if amount == 7.99 then "Basic"
      else if amount == 13.99 then "Premium"
      else "Unknown"
    else "Unknown"
  [("is_major_subscription", .i (bint (major.contains vendor_name))),
   ("is_telecom_or_insurance", .i (bint (telecom.contains vendor_name))),
   ("is_utility_bill", .i (bint (utility.contains vendor_name))),
   ("subscription_tier", .s tier)]

/-- The default record of get_additional_recurring_indicators for a
vendor with no history. -/
def additionalDefault : List (String × FVal) :=
  [("n_similar_transactions_last_3_months", .i 0),
   ("n_similar_transactions_last_6_months", .i 0),
   ("transaction_day_consistency", .q 0),
   ("is_first_transaction_with_vendor", .i 1),
   ("is_canceled_or_refunded", .i 0)]

/-- The fixed refund keyword set. -/
def refund_keywords : List String := ["refund", "reversal", "canceled", "chargeback"]

/-- The is_canceled_or_refunded scan of the source: some transaction of
the full history has the exact negated amount and a refund keyword as a
case-insensitive substring of its name. -/
def refundSignal (t : Transaction) (all : List Transaction) : Bool :=
  all.any (fun x => t.amount == -x.amount
    && refund_keywords.any (fun w => strContainsSub (lowerStr x.name) w))

/-- get_additional_recurring_indicators: recent same-vendor counts,
day-of-month consistency, first-occurrence flag, refund flag. -/
def get_additional_recurring_indicators (t : Transaction) (all : List Transaction) :
    Except PyError (List (String × FVal)) :=
  match parseDate t.date with
  | none => .error .dateFormatError
  | some date_obj =>
    let merchant := merchantOf t all
    if merchant.isEmpty then .ok additionalDefault
    else
      match parseDatesE merchant with
      | .error e => .error e
      | .ok ds =>
        let dates := sortDates ds
        let last3 := dates.filter (fun d => decide (rataDie date_obj - 90 ≤ rataDie d))
        let last6 := dates.filter (fun d => decide (rataDie date_obj - 180 ≤ rataDie d))
        let transaction_days := dates.map (fun d => (d.day : Rat))
        match (if 1 < transaction_days.length then
                 match divE transaction_days.sum (transaction_days.length : Rat) with
                 | .error e => .error e
                 | .ok avg_day =>
                   match divE ((transaction_days.map (fun x => (x - avg_day) ^ 2)).sum)
                       ((transaction_days.length : Rat)) with
                   | .error e => .error e
                   | .ok v => .ok (sqrtQ v)
               else Except.ok 0) with
        | .error e => .error e
        | .ok day_std_dev =>
          match pyIndex dates 0 with
          | .error e => .error e
          | .ok firstDate =>
            .ok [("n_similar_transactions_last_3_months", .i (last3.length : Int)),
                 ("n_similar_transactions_last_6_months", .i (last6.length : Int)),
                 ("transaction_day_consistency", .q day_std_dev),
                 ("is_first_transaction_with_vendor",
                    .i (if date_obj = firstDate then 1 else 0)),
                 ("is_canceled_or_refunded", .i (bint (refundSignal t all)))]

/-- get_day_of_week_features: calendar features of the current date plus
days since the second-to-last sorted vendor date. -/
def get_day_of_week_features (t : Transaction) (all : List Transaction) :
    Except PyError (List (String × FVal)) :=
  match parseDate t.date with
  | none => .error .dateFormatError
  | some date_obj =>
    let merchant := merchantOf t all
    match parseDatesE merchant with
    | .error e => .error e
    | .ok ds =>
      let dates := sortDates ds
      match (if 1 < dates.length then
               match pyIndex dates (-2) with
               | .error e => .error e
               | .ok d => .ok (some d)
             else Except.ok none) with
      | .error e => .error e
      | .ok lastOpt =>
        let days_since_last : Int :=
          match lastOpt with
          | some lastDate => rataDie date_obj - rataDie lastDate
          | none => 0
        .ok [("day_of_month", .i (date_obj.day : Int)),
             ("weekday", .i (weekday date_obj : Int)),
             ("week_of_year", .i (isoWeek date_obj : Int)),
             ("is_weekend", .i (bint (decide (5 ≤ weekday date_obj)))),
             ("days_since_last_transaction", .i days_since_last)]

/-- get_amount_based_features: 2 percent fixed-amount band, fluctuation
range, and size buckets of the current amount. -/
def get_amount_based_features (t : Transaction) (all : List Transaction) :
    Except PyError (List (String × FVal)) :=
  let vendor_transactions := merchantOf t all
  if vendor_transactions.isEmpty then
    .ok [("is_fixed_amount_recurring", .i 0),
         ("amount_fluctuation_range", .q 0),
         ("is_small_subscription", .i 0),
         ("is_mid_sized_subscription", .i 0),
         ("is_large_recurring_payment", .i 0)]
  else
    let amounts := vendor_transactions.map (fun x => x.amount)
    match minQE amounts, maxQE amounts with
    | .ok min_amount, .ok max_amount =>
      .ok [("is_fixed_amount_recurring", .i (bint (decide (max_amount ≤ min_amount * 1.02)))),
           ("amount_fluctuation_range", .q (max_amount - min_amount)),
           ("is_small_subscription", .i (bint (decide (3.99 ≤ t.amount ∧ t.amount ≤ 14.99)))),
           ("is_mid_sized_subscription", .i (bint (decide (15 ≤ t.amount ∧ t.amount ≤ 49.99)))),
           ("is_large_recurring_payment", .i (bint (decide (50 ≤ t.amount))))]
    | .error e, _ => .error e
    | _, .error e => .error e

/-- get_temporal_features: days since the first vendor date and monthly
frequency over the vendor date span. -/
def get_temporal_features (t : Transaction) (all : List Transaction) :
    Except PyError (List (String × FVal)) :=
  let merchant := merchantOf t all
  match parseDatesE merchant with
  | .error e => .error e
  | .ok ds =>
    let dates := sortDates ds
    if dates.length < 2 then
      .ok [("time_since_first_transaction", .i 0),
           ("transaction_frequency", .q 0)]
    else
      match pyIndex dates 0 with
      | .error e => .error e
      | .ok firstDate =>
        match parseDate t.date with
        | none => .error .dateFormatError
        | some date_obj =>
          let time_since_first := rataDie date_obj - rataDie firstDate
          match pyIndex dates (-1) with
          | .error e => .error e
          | .ok lastDate =>
            let total_days := rataDie lastDate - rataDie firstDate
            match (if total_days = 0 then Except.ok 0
                   else
                     match divE (total_days : Rat) 30 with
                     | .error e => .error e
                     | .ok span => divE (dates.length : Rat) span) with
            | .error e => .error e
            | .ok freq =>
              .ok [("time_since_first_transaction", .i time_since_first),
                   ("transaction_frequency", .q freq)]

/-- get_vendor_specific_features: vendor popularity count and the
category table scanned in insertion order. -/
def get_vendor_specific_features (t : Transaction) (all : List Transaction) :
    List (String × FVal) :=
  let vendor_transactions := merchantOf t all
  let vendor_popularity := vendor_transactions.length
  let streaming : List String := ["netflix", "spotify", "disney+", "hulu", "amazon prime"]
  let telecom : List String := ["at&t", "verizon", "t-mobile"]
  let utilities : List String := ["duke energy", "con edison", "national grid"]
  let vendor_category : String :=
    if streaming.contains (lowerStr t.name) then "streaming"
    else if telecom.contains (lowerStr t.name) then "telecom"
    else if utilities.contains (lowerStr t.name) then "utilities"
    else "other"
  [("vendor_popularity", .i (vendor_popularity : Int)),
   ("vendor_category", .s vendor_category)]

/-- get_user_behavior_features: spending mean and total of the same-user
history, and the known-subscription count on the raw vendor name. -/
def get_user_behavior_features (t : Transaction) (all : List Transaction) :
    Except PyError (List (String × FVal)) :=
  let user_transactions := all.filter (fun x => x.user_id == t.user_id)
  if user_transactions.isEmpty then
    .ok [("user_avg_transaction_amount", .q 0),
         ("user_total_spending", .q 0),
         ("user_subscription_count", .i 0)]
  else
    let amounts := user_transactions.map (fun x => x.amount)
    match meanE amounts with
    | .error e => .error e
    | .ok avg =>
      let subs : List String :=
        ["netflix", "spotify", "disney+", "hulu", "amazon prime", "at&t", "verizon", "t-mobile"]
      let cnt := (user_transactions.filter (fun x => subs.contains x.name)).length
      .ok [("user_avg_transaction_amount", .q avg),
           ("user_total_spending", .q amounts.sum),
           ("user_subscription_count", .i (cnt : Int))]

/-- get_refund_features: share of sign-inverted amounts in the history
and the mean day lag of those matches. -/
def get_refund_features (t : Transaction) (all : List Transaction) :
    Except PyError (List (String × FVal)) :=
  let refunds := all.filter (fun x => x.amount == -t.amount)
  if refunds.isEmpty then
    .ok [("refund_rate", .q 0),
         ("refund_time_lag", .q 0)]
  else
    match divE (refunds.length : Rat) ((all.length : Rat)) with
    | .error e => .error e
    | .ok refund_rate =>
      match parseDatesE refunds, parseDate t.date with
      | .error e, _ => .error e
      | .ok _, none => .error .dateFormatError
      | .ok rds, some d0 =>
        let lags := rds.map (fun d => ((rataDie d - rataDie d0 : Int) : Rat))
        match (if lags.isEmpty then Except.ok 0 else meanE lags) with
        | .error e => .error e
        | .ok lag =>
          .ok [("refund_rate", .q refund_rate),
               ("refund_time_lag", .q lag)]

/-- get_features: the aggregator, invoking every analyzer in source order
and concatenating the returned records (the dict double-splat merge; all
key namespaces are disjoint). -/
def get_features (t : Transaction) (all : List Transaction) :
    Except PyError (List (String × FVal)) :=
  match get_percent_transactions_same_amount t all with
  | .error e => .error e
  | .ok pct =>
  match get_time_based_recurrence_patterns t all with
  | .error e => .error e
  | .ok timeB =>
  match get_amount_based_features t all with
  | .error e => .error e
  | .ok amountB =>
  match get_additional_recurring_indicators t all with
  | .error e => .error e
  | .ok addI =>
  match get_day_of_week_features t all with
  | .error e => .error e
  | .ok dayW =>
  match get_temporal_features t all with
  | .error e => .error e
  | .ok tempF =>
  match get_user_behavior_features t all with
  | .error e => .error e
  | .ok userB =>
  match get_refund_features t all with
  | .error e => .error e
  | .ok refundF =>
    .ok ([("n_transactions_same_amount", .i (get_n_transactions_same_amount t all)),
          ("percent_transactions_same_amount", .q pct)]
         ++ timeB
         ++ get_vendor_subscription_features t
         ++ amountB
         ++ addI
         ++ dayW
         ++ tempF
         ++ get_vendor_specific_features t all
         ++ userB
         ++ refundF
         ++ [("is_valid_recurring_transaction", .i (bint (validate_recurring_transaction t)))])

/-- Look a feature up in an analyzer result (none on error or absence). -/
def featOf (r : Except PyError (List (String × FVal))) (k : String) : Option FVal :=
  match r with
  | .ok fs => (fs.find? (fun p => p.1 == k)).map Prod.snd
  | .error _ => none

/-- The exact key set of the output contract, in aggregation order. -/
def featureKeys : List String :=
  ["n_transactions_same_amount", "percent_transactions_same_amount",
   "is_biweekly", "is_semimonthly", "is_monthly", "is_bimonthly",
   "is_quarterly", "is_annual",
   "avg_days_between_transactions", "min_days_between_transactions",
   "max_days_between_transactions", "std_days_between_transactions",
   "is_major_subscription", "is_telecom_or_insurance", "is_utility_bill",
   "subscription_tier",
   "is_fixed_amount_recurring", "amount_fluctuation_range",
   "is_small_subscription", "is_mid_sized_subscription", "is_large_recurring_payment",
   "n_similar_transactions_last_3_months", "n_similar_transactions_last_6_months",
   "transaction_day_consistency", "is_first_transaction_with_vendor",
   "is_canceled_or_refunded",
   "day_of_month", "weekday", "week_of_year", "is_weekend",
   "days_since_last_transaction",
   "time_since_first_transaction", "transaction_frequency",
   "vendor_popularity", "vendor_category",
   "user_avg_transaction_amount", "user_total_spending", "user_subscription_count",
   "refund_rate", "refund_time_lag", "is_valid_recurring_transaction"]

/-- Well-formed input: the transaction date and every history date parse. -/
abbrev WellFormedInput (t : Transaction) (all : List Transaction) : Prop :=
  (parseDate t.date).isSome = true ∧ ∀ x ∈ all, (parseDate x.date).isSome = true

/-- The second-to-last entry of a list (Python subscript -2). -/
def secondLast (l : List Date) : Date := l.getD (l.length - 2) ⟨0, 0, 0⟩

theorem parseDatesE_ok (ts : List Transaction)
    (h : ∀ x ∈ ts, (parseDate x.date).isSome = true) :
    ∃ ds, parseDatesE ts = Except.ok ds ∧ ds.length = ts.length := by
  induction ts with
  | nil => exact ⟨[], rfl, rfl⟩
  | cons t ts ih =>
    have ht : (parseDate t.date).isSome = true := h t (List.mem_cons_self t ts)
    obtain ⟨d, hd⟩ := Option.isSome_iff_exists.mp ht
    obtain ⟨ds, hds, hlen⟩ := ih (fun x hx => h x (List.mem_cons_of_mem _ hx))
    exact ⟨d :: ds, by simp [parseDatesE, hd, hds], by simp [hlen]⟩

theorem insertSorted_length (d : Date) (l : List Date) :
    (insertSorted d l).length = l.length + 1 := by
  induction l with
  | nil => rfl
  | cons e es ih =>
    by_cases h : rataDie d ≤ rataDie e
    · simp [insertSorted, h]
    · simp [insertSorted, h, ih]

theorem sortDates_length (ds : List Date) : (sortDates ds).length = ds.length := by
  induction ds with
  | nil => rfl
  | cons d ds ih =>
    show (insertSorted d (sortDates ds)).length = ds.length + 1
    rw [insertSorted_length, ih]

theorem dateDiffs_length : ∀ l : List Date, (dateDiffs l).length = l.length - 1
  | [] => rfl
  | [_] => rfl
  | a :: b :: rest => by
    have h := dateDiffs_length (b :: rest)
    simp only [dateDiffs, List.length_cons] at h ⊢
    omega

theorem meanE_ok (xs : List Rat) (h : xs ≠ []) :
    meanE xs = .ok (xs.sum / (xs.length : Rat)) := by
  have : xs.length ≠ 0 := fun hc => h (List.length_eq_zero.mp hc)
  simp [meanE, this]

theorem stdevE_ok (xs : List Rat) (h : 2 ≤ xs.length) :
    ∃ v, stdevE xs = .ok v := by
  unfold stdevE
  rw [if_neg (Nat.not_lt.mpr h)]
  exact ⟨_, rfl⟩

theorem minE_ok (l : List Int) (h : l ≠ []) : ∃ v, minE l = .ok v := by
  cases l with
  | nil => exact absurd rfl h
  | cons x xs => exact ⟨_, rfl⟩

theorem maxE_ok (l : List Int) (h : l ≠ []) : ∃ v, maxE l = .ok v := by
  cases l with
  | nil => exact absurd rfl h
  | cons x xs => exact ⟨_, rfl⟩

theorem minQE_ok (l : List Rat) (h : l ≠ []) :
    ∃ v, minQE l = .ok v ∧ v = listMinQ l := by
  cases l with
  | nil => exact absurd rfl h
  | cons x xs => exact ⟨_, rfl, rfl⟩

theorem maxQE_ok (l : List Rat) (h : l ≠ []) :
    ∃ v, maxQE l = .ok v ∧ v = listMaxQ l := by
  cases l with
  | nil => exact absurd rfl h
  | cons x xs => exact ⟨_, rfl, rfl⟩

theorem divE_ok (a b : Rat) (h : b ≠ 0) : divE a b = .ok (a / b) := by
  simp [divE, h]

theorem pyIndex_zero (xs : List Date) (h : 0 < xs.length) :
    pyIndex xs 0 = .ok (xs.getD 0 ⟨0, 0, 0⟩) := by
  show (if 0 ≤ (0 : Int) ∧ ((0 : Int)).toNat < xs.length then
          Except.ok (xs.getD ((0 : Int)).toNat ⟨0, 0, 0⟩)
        else Except.error PyError.indexError)
        = Except.ok (xs.getD 0 ⟨0, 0, 0⟩)
  rw [if_pos ⟨le_refl 0, by simpa using h⟩]
  rfl

theorem pyIndex_neg_one (xs : List Date) (h : 1 ≤ xs.length) :
    pyIndex xs (-1) = .ok (xs.getD (xs.length - 1) ⟨0, 0, 0⟩) := by
  have hj : ((xs.length : Int) + (-1)).toNat = xs.length - 1 := by omega
  show (if 0 ≤ (xs.length : Int) + (-1) ∧ ((xs.length : Int) + (-1)).toNat < xs.length then
          Except.ok (xs.getD ((xs.length : Int) + (-1)).toNat ⟨0, 0, 0⟩)
        else Except.error PyError.indexError)
        = Except.ok (xs.getD (xs.length - 1) ⟨0, 0, 0⟩)
  rw [if_pos ⟨by omega, by omega⟩, hj]

theorem pyIndex_neg_two (xs : List Date) (h : 2 ≤ xs.length) :
    pyIndex xs (-2) = .ok (xs.getD (xs.length - 2) ⟨0, 0, 0⟩) := by
  have hj : ((xs.length : Int) + (-2)).toNat = xs.length - 2 := by omega
  show (if 0 ≤ (xs.length : Int) + (-2) ∧ ((xs.length : Int) + (-2)).toNat < xs.length then
          Except.ok (xs.getD ((xs.length : Int) + (-2)).toNat ⟨0, 0, 0⟩)
        else Except.error PyError.indexError)
        = Except.ok (xs.getD (xs.length - 2) ⟨0, 0, 0⟩)
  rw [if_pos ⟨by omega, by omega⟩, hj]

theorem length_filter_mono {α : Type} (p q : α → Bool) (l : List α)
    (h : ∀ x ∈ l, p x = true → q x = true) :
    (l.filter p).length ≤ (l.filter q).length := by
  induction l with
  | nil => simp
  | cons a l ih =>
    have ih2 := ih (fun x hx => h x (List.mem_cons_of_mem _ hx))
    by_cases hp : p a = true
    · have hq := h a (List.mem_cons_self a l) hp
      simp only [List.filter, hp, hq, List.length_cons]
      omega
    · simp only [List.filter, Bool.not_eq_true] at hp ⊢
      rw [hp]
      by_cases hq : q a = true
      · rw [hq]
        simp only [List.length_cons]
        omega
      · rw [Bool.not_eq_true] at hq
        rw [hq]
        exact ih2

theorem foldl_min_const (a : Rat) :
    ∀ l : List Rat, (∀ y ∈ l, y = a) → ∀ x0, x0 = a → l.foldl min x0 = a := by
  intro l
  induction l with
  | nil => intro _ x0 hx; simpa using hx
  | cons y ys ih =>
    intro h x0 hx
    have hy : y = a := h y (List.mem_cons_self y ys)
    have : min x0 y = a := by rw [hx, hy, min_self]
    exact ih (fun z hz => h z (List.mem_cons_of_mem _ hz)) _ this

theorem foldl_max_const (a : Rat) :
    ∀ l : List Rat, (∀ y ∈ l, y = a) → ∀ x0, x0 = a → l.foldl max x0 = a := by
  intro l
  induction l with
  | nil => intro _ x0 hx; simpa using hx
  | cons y ys ih =>
    intro h x0 hx
    have hy : y = a := h y (List.mem_cons_self y ys)
    have : max x0 y = a := by rw [hx, hy, max_self]
    exact ih (fun z hz => h z (List.mem_cons_of_mem _ hz)) _ this

theorem bint_decide_eq_one (P : Prop) [Decidable P] :
    bint (decide P) = (1 : Int) ↔ P := by
  by_cases h : P <;> simp [bint, h]

theorem length_cast_ne_zero (l : List Transaction) (h : l ≠ []) :
    ((l.length : Rat)) ≠ 0 := by
  have hl : l.length ≠ 0 := fun hc => h (List.length_eq_zero.mp hc)
  exact_mod_cast hl

theorem get_percent_ok (t : Transaction) (all : List Transaction) :
    ∃ v, get_percent_transactions_same_amount t all = .ok v := by
  unfold get_percent_transactions_same_amount
  by_cases h : all.isEmpty = true
  · rw [if_pos h]
    exact ⟨0, rfl⟩
  · rw [if_neg h]
    have hne : all ≠ [] := by simpa [List.isEmpty_iff_eq_nil] using h
    exact ⟨_, divE_ok _ _ (length_cast_ne_zero all hne)⟩

theorem get_amount_based_ok (t : Transaction) (all : List Transaction) :
    ∃ fs, get_amount_based_features t all = .ok fs ∧
      fs.map Prod.fst = ["is_fixed_amount_recurring", "amount_fluctuation_range",
        "is_small_subscription", "is_mid_sized_subscription", "is_large_recurring_payment"] := by
  unfold get_amount_based_features
  by_cases h : (merchantOf t all).isEmpty = true
  · rw [if_pos h]
    exact ⟨_, rfl, rfl⟩
  · rw [if_neg h]
    have hne : (merchantOf t all).map (fun x => x.amount) ≠ [] := by
      have : merchantOf t all ≠ [] := by simpa [List.isEmpty_iff_eq_nil] using h
      simpa [List.map_eq_nil] using this
    obtain ⟨v1, hv1, _⟩ := minQE_ok _ hne
    obtain ⟨v2, hv2, _⟩ := maxQE_ok _ hne
    simp only [hv1, hv2]
    exact ⟨_, rfl, rfl⟩

theorem get_user_behavior_ok (t : Transaction) (all : List Transaction) :
    ∃ fs, get_user_behavior_features t all = .ok fs ∧
      fs.map Prod.fst = ["user_avg_transaction_amount", "user_total_spending",
        "user_subscription_count"] := by
  unfold get_user_behavior_features
  by_cases h : (all.filter (fun x => x.user_id == t.user_id)).isEmpty = true
  · rw [if_pos h]
    exact ⟨_, rfl, rfl⟩
  · rw [if_neg h]
    have hne : (all.filter (fun x => x.user_id == t.user_id)).map (fun x => x.amount) ≠ [] := by
      have : all.filter (fun x => x.user_id == t.user_id) ≠ [] := by
        simpa [List.isEmpty_iff_eq_nil] using h
      simpa [List.map_eq_nil] using this
    simp only [meanE_ok _ hne]
    exact ⟨_, rfl, rfl⟩

theorem get_refund_ok (t : Transaction) (all : List Transaction)
    (hp : (parseDate t.date).isSome = true)
    (hall : ∀ x ∈ all, (parseDate x.date).isSome = true) :
    ∃ fs, get_refund_features t all = .ok fs ∧
      fs.map Prod.fst = ["refund_rate", "refund_time_lag"] := by
  unfold get_refund_features
  by_cases h : (all.filter (fun x => x.amount == -t.amount)).isEmpty = true
  · rw [if_pos h]
    exact ⟨_, rfl, rfl⟩
  · rw [if_neg h]
    have hne : all.filter (fun x => x.amount == -t.amount) ≠ [] := by
      simpa [List.isEmpty_iff_eq_nil] using h
    have hallne : all ≠ [] := by
      intro hc
      subst hc
      simp at hne
    rw [divE_ok _ _ (length_cast_ne_zero all hallne)]
    obtain ⟨rds, hrds, _⟩ :=
      parseDatesE_ok (all.filter (fun x => x.amount == -t.amount))
        (fun x hx => hall x (List.mem_of_mem_filter hx))
    obtain ⟨d0, hd0⟩ := Option.isSome_iff_exists.mp hp
    simp only [hrds, hd0]
    by_cases hl : (rds.map (fun d => ((rataDie d - rataDie d0 : Int) : Rat))).isEmpty = true
    · rw [if_pos hl]
      exact ⟨_, rfl, rfl⟩
    · rw [if_neg hl]
      have : rds.map (fun d => ((rataDie d - rataDie d0 : Int) : Rat)) ≠ [] := by
        simpa [List.isEmpty_iff_eq_nil] using hl
      rw [meanE_ok _ this]
      exact ⟨_, rfl, rfl⟩

theorem get_time_based_ok (t : Transaction) (all : List Transaction)
    (hall : ∀ x ∈ all, (parseDate x.date).isSome = true) :
    ∃ fs, get_time_based_recurrence_patterns t all = .ok fs ∧
      fs.map Prod.fst = ["is_biweekly", "is_semimonthly", "is_monthly", "is_bimonthly",
        "is_quarterly", "is_annual", "avg_days_between_transactions",
        "min_days_between_transactions", "max_days_between_transactions",
        "std_days_between_transactions"] := by
  unfold get_time_based_recurrence_patterns
  by_cases h : (merchantOf t all).length < 2
  · rw [if_pos h]
    exact ⟨_, rfl, rfl⟩
  · rw [if_neg h]
    obtain ⟨ds, hds, hlen⟩ :=
      parseDatesE_ok (merchantOf t all)
        (fun x hx => hall x (List.mem_of_mem_filter hx))
    simp only [hds]
    have hdl : 1 ≤ (dateDiffs (sortDates ds)).length := by
      rw [dateDiffs_length, sortDates_length, hlen]
      omega
    have hmapne : (dateDiffs (sortDates ds)).map (fun d => ((d : Int) : Rat)) ≠ [] := by
      intro hc
      rw [List.map_eq_nil] at hc
      rw [hc] at hdl
      simp at hdl
    have hdne : dateDiffs (sortDates ds) ≠ [] := by
      intro hc
      rw [hc] at hdl
      simp at hdl
    simp only [meanE_ok _ hmapne]
    obtain ⟨v1, hv1⟩ := minE_ok _ hdne
    obtain ⟨v2, hv2⟩ := maxE_ok _ hdne
    simp only [hv1, hv2]
    by_cases hstd : 1 < (dateDiffs (sortDates ds)).length
    · rw [if_pos hstd]
      obtain ⟨v3, hv3⟩ := stdevE_ok ((dateDiffs (sortDates ds)).map (fun d => ((d : Int) : Rat)))
        (by rw [List.length_map]; omega)
      simp only [hv3]
      exact ⟨_, rfl, rfl⟩
    · rw [if_neg hstd]
      exact ⟨_, rfl, rfl⟩

theorem get_additional_ok (t : Transaction) (all : List Transaction)
    (hp : (parseDate t.date).isSome = true)
    (hall : ∀ x ∈ all, (parseDate x.date).isSome = true) :
    ∃ fs, get_additional_recurring_indicators t all = .ok fs ∧
      fs.map Prod.fst = ["n_similar_transactions_last_3_months",
        "n_similar_transactions_last_6_months", "transaction_day_consistency",
        "is_first_transaction_with_vendor", "is_canceled_or_refunded"] := by
  unfold get_additional_recurring_indicators
  obtain ⟨d0, hd0⟩ := Option.isSome_iff_exists.mp hp
  simp only [hd0]
  by_cases h : (merchantOf t all).isEmpty = true
  · rw [if_pos h]
    exact ⟨_, rfl, rfl⟩
  · rw [if_neg h]
    have hmne : merchantOf t all ≠ [] := by simpa [List.isEmpty_iff_eq_nil] using h
    obtain ⟨ds, hds, hlen⟩ :=
      parseDatesE_ok (merchantOf t all)
        (fun x hx => hall x (List.mem_of_mem_filter hx))
    simp only [hds]
    have hdpos : 0 < (sortDates ds).length := by
      rw [sortDates_length, hlen]
      cases hm : merchantOf t all with
      | nil => exact absurd hm hmne
      | cons a b => simp
    have hcons : ∃ v, (if 1 < ((sortDates ds).map (fun d => (d.day : Rat))).length then
        (match divE ((sortDates ds).map (fun d => (d.day : Rat))).sum
            ((((sortDates ds).map (fun d => (d.day : Rat))).length : Rat)) with
         | .error e => Except.error e
         | .ok avg_day =>
           match divE ((((sortDates ds).map (fun d => (d.day : Rat))).map
               (fun x => (x - avg_day) ^ 2)).sum)
               ((((sortDates ds).map (fun d => (d.day : Rat))).length : Rat)) with
           | .error e => Except.error e
           | .ok v => Except.ok (sqrtQ v))
      else Except.ok 0) = Except.ok v := by
      by_cases hgt : 1 < ((sortDates ds).map (fun d => (d.day : Rat))).length
      · rw [if_pos hgt]
        have hne0 : ((((sortDates ds).map (fun d => (d.day : Rat))).length : Rat)) ≠ 0 := by
          have : ((sortDates ds).map (fun d => (d.day : Rat))).length ≠ 0 := by omega
          exact_mod_cast this
        simp only [divE_ok _ _ hne0]
        exact ⟨_, rfl⟩
      · rw [if_neg hgt]
        exact ⟨0, rfl⟩
    obtain ⟨v, hv⟩ := hcons
    simp only [hv, pyIndex_zero _ hdpos]
    exact ⟨_, rfl, rfl⟩

theorem get_day_of_week_ok (t : Transaction) (all : List Transaction)
    (hp : (parseDate t.date).isSome = true)
    (hall : ∀ x ∈ all, (parseDate x.date).isSome = true) :
    ∃ fs, get_day_of_week_features t all = .ok fs ∧
      fs.map Prod.fst = ["day_of_month", "weekday", "week_of_year", "is_weekend",
        "days_since_last_transaction"] := by
  unfold get_day_of_week_features
  obtain ⟨d0, hd0⟩ := Option.isSome_iff_exists.mp hp
  simp only [hd0]
  obtain ⟨ds, hds, hlen⟩ :=
    parseDatesE_ok (merchantOf t all)
      (fun x hx => hall x (List.mem_of_mem_filter hx))
  simp only [hds]
  have hidx : ∃ v, (if 1 < (sortDates ds).length then
      (match pyIndex (sortDates ds) (-2) with
       | .error e => Except.error e
       | .ok d => Except.ok (some d))
    else Except.ok none) = Except.ok v := by
    by_cases hgt : 1 < (sortDates ds).length
    · rw [if_pos hgt, pyIndex_neg_two _ (by omega)]
      exact ⟨_, rfl⟩
    · rw [if_neg hgt]
      exact ⟨none, rfl⟩
  obtain ⟨v, hv⟩ := hidx
  rw [hv]
  exact ⟨_, rfl, rfl⟩

theorem get_temporal_ok (t : Transaction) (all : List Transaction)
    (hp : (parseDate t.date).isSome = true)
    (hall : ∀ x ∈ all, (parseDate x.date).isSome = true) :
    ∃ fs, get_temporal_features t all = .ok fs ∧
      fs.map Prod.fst = ["time_since_first_transaction", "transaction_frequency"] := by
  unfold get_temporal_features
  obtain ⟨ds, hds, hlen⟩ :=
    parseDatesE_ok (merchantOf t all)
      (fun x hx => hall x (List.mem_of_mem_filter hx))
  simp only [hds]
  by_cases h2 : (sortDates ds).length < 2
  · rw [if_pos h2]
    exact ⟨_, rfl, rfl⟩
  · rw [if_neg h2]
    obtain ⟨d0, hd0⟩ := Option.isSome_iff_exists.mp hp
    rw [pyIndex_zero _ (by omega)]
    simp only [hd0]
    rw [pyIndex_neg_one _ (by omega)]
    have hfreq : ∃ v,
        (if rataDie ((sortDates ds).getD ((sortDates ds).length - 1) ⟨0, 0, 0⟩)
              - rataDie ((sortDates ds).getD 0 ⟨0, 0, 0⟩) = 0 then Except.ok 0
         else
           match divE (((rataDie ((sortDates ds).getD ((sortDates ds).length - 1) ⟨0, 0, 0⟩)
               - rataDie ((sortDates ds).getD 0 ⟨0, 0, 0⟩) : Int) : Rat)) 30 with
           | .error e => Except.error e
           | .ok span => divE (((sortDates ds).length : Rat)) span) = Except.ok v := by
      set td : Int := rataDie ((sortDates ds).getD ((sortDates ds).length - 1) ⟨0, 0, 0⟩)
        - rataDie ((sortDates ds).getD 0 ⟨0, 0, 0⟩) with htd
      by_cases hz : td = 0
      · rw [if_pos hz]
        exact ⟨0, rfl⟩
      · rw [if_neg hz]
        rw [divE_ok _ _ (by norm_num)]
        refine ⟨_, divE_ok _ _ ?_⟩
        rw [div_ne_zero_iff]
        constructor
        · exact_mod_cast hz
        · norm_num
    obtain ⟨v, hv⟩ := hfreq
    simp only [hv]
    exact ⟨_, rfl, rfl⟩

theorem get_features_ok (t : Transaction) (all : List Transaction)
    (h : WellFormedInput t all) :
    ∃ fs, get_features t all = .ok fs ∧ fs.map Prod.fst = featureKeys := by
  obtain ⟨hp, hall⟩ := h
  obtain ⟨pct, hpct⟩ := get_percent_ok t all
  obtain ⟨timeB, htimeB, ktimeB⟩ := get_time_based_ok t all hall
  obtain ⟨amountB, hamountB, kamountB⟩ := get_amount_based_ok t all
  obtain ⟨addI, haddI, kaddI⟩ := get_additional_ok t all hp hall
  obtain ⟨dayW, hdayW, kdayW⟩ := get_day_of_week_ok t all hp hall
  obtain ⟨tempF, htempF, ktempF⟩ := get_temporal_ok t all hp hall
  obtain ⟨userB, huserB, kuserB⟩ := get_user_behavior_ok t all
  obtain ⟨refundF, hrefundF, krefundF⟩ := get_refund_ok t all hp hall
  unfold get_features
  simp only [hpct, htimeB, hamountB, haddI, hdayW, htempF, huserB, hrefundF]
  refine ⟨_, rfl, ?_⟩
  simp only [List.map_append, ktimeB, kamountB, kaddI, kdayW, ktempF, kuserB, krefundF,
    get_vendor_subscription_features, get_vendor_specific_features]
  rfl

theorem parseDatesE_err (ts : List Transaction) :
    ∀ e : PyError, parseDatesE ts = .error e → e = .dateFormatError := by
  induction ts with
  | nil =>
    intro e he
    cases he
  | cons t ts ih =>
    intro e he
    unfold parseDatesE at he
    cases hp : parseDate t.date with
    | none =>
      rw [hp] at he
      exact (Except.error.inj he).symm
    | some d =>
      rw [hp] at he
      cases hr : parseDatesE ts with
      | ok ds =>
        rw [hr] at he
        cases he
      | error e2 =>
        rw [hr] at he
        rw [← Except.error.inj he]
        exact ih e2 hr

theorem parseDatesE_length (ts : List Transaction) (ds : List Date)
    (h : parseDatesE ts = .ok ds) : ds.length = ts.length := by
  induction ts generalizing ds with
  | nil =>
    cases h
    rfl
  | cons t ts ih =>
    unfold parseDatesE at h
    cases hp : parseDate t.date with
    | none =>
      rw [hp] at h
      cases h
    | some d =>
      rw [hp] at h
      cases hr : parseDatesE ts with
      | ok ds2 =>
        rw [hr] at h
        cases h
        simp [ih ds2 hr]
      | error e2 =>
        rw [hr] at h
        cases h

theorem get_time_based_result (t : Transaction) (all : List Transaction) :
    (∃ fs, get_time_based_recurrence_patterns t all = .ok fs) ∨
    get_time_based_recurrence_patterns t all = .error .dateFormatError := by
  unfold get_time_based_recurrence_patterns
  by_cases h : (merchantOf t all).length < 2
  · rw [if_pos h]
    exact Or.inl ⟨_, rfl⟩
  · rw [if_neg h]
    cases hds : parseDatesE (merchantOf t all) with
    | error e =>
      right
      rw [parseDatesE_err _ _ hds]
    | ok ds =>
      left
      have hlen := parseDatesE_length _ _ hds
      have hdl : 1 ≤ (dateDiffs (sortDates ds)).length := by
        rw [dateDiffs_length, sortDates_length, hlen]
        omega
      have hmapne : (dateDiffs (sortDates ds)).map (fun d => ((d : Int) : Rat)) ≠ [] := by
        intro hc
        rw [List.map_eq_nil] at hc
        rw [hc] at hdl
        simp at hdl
      have hdne : dateDiffs (sortDates ds) ≠ [] := by
        intro hc
        rw [hc] at hdl
        simp at hdl
      simp only [meanE_ok _ hmapne]
      obtain ⟨v1, hv1⟩ := minE_ok _ hdne
      obtain ⟨v2, hv2⟩ := maxE_ok _ hdne
      simp only [hv1, hv2]
      by_cases hstd : 1 < (dateDiffs (sortDates ds)).length
      · rw [if_pos hstd]
        obtain ⟨v3, hv3⟩ := stdevE_ok
          ((dateDiffs (sortDates ds)).map (fun d => ((d : Int) : Rat)))
          (by rw [List.length_map]; omega)
        simp only [hv3]
        exact ⟨_, rfl⟩
      · rw [if_neg hstd]
        exact ⟨_, rfl⟩

theorem get_additional_eval (t : Transaction) (all : List Transaction)
    (d0 : Date) (ds : List Date)
    (hd0 : parseDate t.date = some d0)
    (hne : merchantOf t all ≠ [])
    (hds : parseDatesE (merchantOf t all) = .ok ds) :
    ∃ dayStd, get_additional_recurring_indicators t all = .ok
      [("n_similar_transactions_last_3_months",
          .i ((((sortDates ds).filter (fun d => decide (rataDie d0 - 90 ≤ rataDie d))).length : Int))),
       ("n_similar_transactions_last_6_months",
          .i ((((sortDates ds).filter (fun d => decide (rataDie d0 - 180 ≤ rataDie d))).length : Int))),
       ("transaction_day_consistency", .q dayStd),
       ("is_first_transaction_with_vendor",
          .i (if d0 = (sortDates ds).getD 0 ⟨0, 0, 0⟩ then 1 else 0)),
       ("is_canceled_or_refunded", .i (bint (refundSignal t all)))] := by
  unfold get_additional_recurring_indicators
  simp only [hd0]
  rw [if_neg (by simpa [List.isEmpty_iff_eq_nil] using hne)]
  simp only [hds]
  have hlen := parseDatesE_length _ _ hds
  have hdpos : 0 < (sortDates ds).length := by
    rw [sortDates_length, hlen]
    cases hm : merchantOf t all with
    | nil => exact absurd hm hne
    | cons a b => simp
  have hcons : ∃ v, (if 1 < ((sortDates ds).map (fun d => (d.day : Rat))).length then
      (match divE ((sortDates ds).map (fun d => (d.day : Rat))).sum
          ((((sortDates ds).map (fun d => (d.day : Rat))).length : Rat)) with
       | .error e => Except.error e
       | .ok avg_day =>
         match divE ((((sortDates ds).map (fun d => (d.day : Rat))).map
             (fun x => (x - avg_day) ^ 2)).sum)
             ((((sortDates ds).map (fun d => (d.day : Rat))).length : Rat)) with
         | .error e => Except.error e
         | .ok v => Except.ok (sqrtQ v))
    else Except.ok 0) = Except.ok v := by
    by_cases hgt : 1 < ((sortDates ds).map (fun d => (d.day : Rat))).length
    · rw [if_pos hgt]
      have hne0 : ((((sortDates ds).map (fun d => (d.day : Rat))).length : Rat)) ≠ 0 := by
        have : ((sortDates ds).map (fun d => (d.day : Rat))).length ≠ 0 := by omega
        exact_mod_cast this
      simp only [divE_ok _ _ hne0]
      exact ⟨_, rfl⟩
    · rw [if_neg hgt]
      exact ⟨0, rfl⟩
  obtain ⟨v, hv⟩ := hcons
  simp only [hv, pyIndex_zero _ hdpos]
  exact ⟨v, rfl⟩

theorem get_day_of_week_eval (t : Transaction) (all : List Transaction)
    (d0 : Date) (ds : List Date)
    (hd0 : parseDate t.date = some d0)
    (hds : parseDatesE (merchantOf t all) = .ok ds)
    (h2 : 1 < (sortDates ds).length) :
    get_day_of_week_features t all = .ok
      [("day_of_month", .i ((d0.day : Int))),
       ("weekday", .i ((weekday d0 : Int))),
       ("week_of_year", .i ((isoWeek d0 : Int))),
       ("is_weekend", .i (bint (decide (5 ≤ weekday d0)))),
       ("days_since_last_transaction",
          .i (rataDie d0 - rataDie (secondLast (sortDates ds))))] := by
  unfold get_day_of_week_features
  simp only [hd0, hds]
  rw [if_pos h2, pyIndex_neg_two _ (by omega)]
  simp only [secondLast]

theorem get_time_based_eval (t : Transaction) (all : List Transaction)
    (ds : List Date)
    (h2 : ¬ (merchantOf t all).length < 2)
    (hds : parseDatesE (merchantOf t all) = .ok ds) :
    ∃ avg mn mx st, get_time_based_recurrence_patterns t all = .ok
      [("is_biweekly",
          .i (bint (decide (0 < (dateDiffs (sortDates ds)).count 14)))),
       ("is_semimonthly",
          .i (bint ((dateDiffs (sortDates ds)).any
            (fun d => d == 15 || d == 16 || d == 14 || d == 17)))),
       ("is_monthly",
          .i (bint ((dateDiffs (sortDates ds)).any (fun d => decide (27 ≤ d ∧ d ≤ 31))))),
       ("is_bimonthly",
          .i (bint ((dateDiffs (sortDates ds)).any (fun d => decide (55 ≤ d ∧ d ≤ 65))))),
       ("is_quarterly",
          .i (bint ((dateDiffs (sortDates ds)).any (fun d => decide (85 ≤ d ∧ d ≤ 95))))),
       ("is_annual",
          .i (bint ((dateDiffs (sortDates ds)).any (fun d => decide (360 ≤ d ∧ d ≤ 370))))),
       ("avg_days_between_transactions", .q avg),
       ("min_days_between_transactions", .i mn),
       ("max_days_between_transactions", .i mx),
       ("std_days_between_transactions", .q st)] := by
  unfold get_time_based_recurrence_patterns
  rw [if_neg h2]
  simp only [hds]
  have hlen := parseDatesE_length _ _ hds
  have hdl : 1 ≤ (dateDiffs (sortDates ds)).length := by
    rw [dateDiffs_length, sortDates_length, hlen]
    omega
  have hmapne : (dateDiffs (sortDates ds)).map (fun d => ((d : Int) : Rat)) ≠ [] := by
    intro hc
    rw [List.map_eq_nil] at hc
    rw [hc] at hdl
    simp at hdl
  have hdne : dateDiffs (sortDates ds) ≠ [] := by
    intro hc
    rw [hc] at hdl
    simp at hdl
  simp only [meanE_ok _ hmapne]
  obtain ⟨v1, hv1⟩ := minE_ok _ hdne
  obtain ⟨v2, hv2⟩ := maxE_ok _ hdne
  simp only [hv1, hv2]
  by_cases hstd : 1 < (dateDiffs (sortDates ds)).length
  · rw [if_pos hstd]
    obtain ⟨v3, hv3⟩ := stdevE_ok
      ((dateDiffs (sortDates ds)).map (fun d => ((d : Int) : Rat)))
      (by rw [List.length_map]; omega)
    simp only [hv3]
    exact ⟨_, _, _, _, rfl⟩
  · rw [if_neg hstd]
    exact ⟨_, _, _, _, rfl⟩

theorem get_amount_based_eval (t : Transaction) (all : List Transaction)
    (hne : merchantOf t all ≠ []) :
    get_amount_based_features t all = .ok
      [("is_fixed_amount_recurring",
          .i (bint (decide (listMaxQ ((merchantOf t all).map (fun x => x.amount))
            ≤ listMinQ ((merchantOf t all).map (fun x => x.amount)) * 1.02)))),
       ("amount_fluctuation_range",
          .q (listMaxQ ((merchantOf t all).map (fun x => x.amount))
            - listMinQ ((merchantOf t all).map (fun x => x.amount)))),
       ("is_small_subscription", .i (bint (decide (3.99 ≤ t.amount ∧ t.amount ≤ 14.99)))),
       ("is_mid_sized_subscription", .i (bint (decide (15 ≤ t.amount ∧ t.amount ≤ 49.99)))),
       ("is_large_recurring_payment", .i (bint (decide (50 ≤ t.amount))))] := by
  unfold get_amount_based_features
  rw [if_neg (by simpa [List.isEmpty_iff_eq_nil] using hne)]
  have hm : (merchantOf t all).map (fun x => x.amount) ≠ [] := by
    simpa [List.map_eq_nil] using hne
  obtain ⟨v1, hv1, he1⟩ := minQE_ok _ hm
  obtain ⟨v2, hv2, he2⟩ := maxQE_ok _ hm
  simp only [hv1, hv2, he1, he2]

theorem listMinQ_const (a : Rat) (l : List Rat) (hne : l ≠ []) (h : ∀ y ∈ l, y = a) :
    listMinQ l = a := by
  cases l with
  | nil => exact absurd rfl hne
  | cons x xs =>
    exact foldl_min_const a xs (fun y hy => h y (List.mem_cons_of_mem _ hy))
      x (h x (List.mem_cons_self x xs))

theorem listMaxQ_const (a : Rat) (l : List Rat) (hne : l ≠ []) (h : ∀ y ∈ l, y = a) :
    listMaxQ l = a := by
  cases l with
  | nil => exact absurd rfl hne
  | cons x xs =>
    exact foldl_max_const a xs (fun y hy => h y (List.mem_cons_of_mem _ hy))
      x (h x (List.mem_cons_self x xs))

theorem bint_eq_ite (b : Bool) (P : Prop) [Decidable P] (h : b = true ↔ P) :
    bint b = if P then 1 else 0 := by
  by_cases hp : P
  · simp [bint, h.mpr hp, hp]
  · have : b = false := by
      cases hb : b
      · rfl
      · exact absurd (h.mp hb) hp
    simp [bint, this, hp]

/-- A transaction used in concrete evaluations: vendor Acme, amount 20. -/
def txAcme : Transaction := ⟨"1", "u1", "Acme", 20, "2024-01-01"⟩

/-- A sign-inverted transaction whose name holds a refund keyword but whose
vendor name differs from Acme. -/
def txRefund : Transaction := ⟨"2", "u1", "Refund - Acme", -20, "2024-01-02"⟩

/-- A same-vendor transaction with a negative amount. -/
def txNeg : Transaction := ⟨"3", "u1", "Gym", -10, "2024-01-01"⟩

/-- A transaction whose vendor lower-cases to "apple" with amount 4.99. -/
def txApple : Transaction := ⟨"4", "u1", "Apple", 4.99, "2024-01-01"⟩

/-- First of three same-vendor transactions 14 days apart. -/
def txGym1 : Transaction := ⟨"5", "u1", "GymPro", 9.99, "2024-01-01"⟩

/-- Second of three same-vendor transactions 14 days apart. -/
def txGym2 : Transaction := ⟨"6", "u1", "GymPro", 9.99, "2024-01-15"⟩

/-- Third of three same-vendor transactions 14 days apart. -/
def txGym3 : Transaction := ⟨"7", "u1", "GymPro", 9.99, "2024-01-29"⟩

/-- A current transaction dated before its vendor history. -/
def txLate : Transaction := ⟨"8", "u1", "Acme", 5, "2024-01-01"⟩

/-- Vendor history entry dated 2024-02-01. -/
def txH2 : Transaction := ⟨"9", "u1", "Acme", 5, "2024-02-01"⟩

/-- Vendor history entry dated 2024-03-01. -/
def txH3 : Transaction := ⟨"10", "u1", "Acme", 5, "2024-03-01"⟩

/-- A transaction with an unparseable date. -/
def txBad : Transaction := ⟨"11", "u1", "Acme", 5, "not-a-date"⟩

/-- C1: for every well-formed transaction and every well-formed (possibly
empty) history, get_features returns a mapping whose key list is exactly the
41 keys of the output contract, no more and no fewer. -/
theorem c1_get_features_exact_keys (t : Transaction) (all : List Transaction)
    (h : WellFormedInput t all) :
    ∃ fs, get_features t all = Except.ok fs ∧ fs.map Prod.fst = featureKeys ∧
      fs.length = 41 := by
  obtain ⟨fs, h1, h2⟩ := get_features_ok t all h
  refine ⟨fs, h1, h2, ?_⟩
  have h3 := congrArg List.length h2
  rw [List.length_map] at h3
  rw [h3]
  rfl

/-- C1 witness: the key contract holds at a concrete input. -/
theorem c1_witness : WellFormedInput txAcme [] ∧
    (∃ fs, get_features txAcme [] = Except.ok fs ∧ fs.map Prod.fst = featureKeys ∧
      fs.length = 41) :=
  ⟨⟨by decide, by decide⟩, c1_get_features_exact_keys txAcme [] ⟨by decide, by decide⟩⟩

/-- C2 counterexample: the claimed equivalence fails as stated.  The history
holds a transaction with the exactly negated amount and a refund keyword in
its name, yet is_canceled_or_refunded is 0, because no transaction of the
history shares the current vendor name and the analyzer takes its empty-vendor
default branch. -/
theorem c2_counterexample :
    refundSignal txAcme [txRefund] = true ∧
    featOf (get_additional_recurring_indicators txAcme [txRefund])
      "is_canceled_or_refunded" = some (.i 0) := by
  constructor
  · decide
  · decide

/-- C2 amended: is_canceled_or_refunded is 1 iff the same-vendor subset of the
history is non-empty AND some transaction of the full history (any vendor) has
the exactly negated amount and a refund keyword as a case-insensitive
substring of its name; when the same-vendor subset is empty the feature is 0
regardless. -/
theorem c2_canceled_or_refunded_amended (t : Transaction) (all : List Transaction)
    (h : WellFormedInput t all) :
    featOf (get_additional_recurring_indicators t all) "is_canceled_or_refunded" =
      some (.i (if merchantOf t all ≠ [] ∧ refundSignal t all = true then 1 else 0)) := by
  obtain ⟨hp, hall⟩ := h
  obtain ⟨d0, hd0⟩ := Option.isSome_iff_exists.mp hp
  by_cases hm : merchantOf t all = []
  · have hdef : get_additional_recurring_indicators t all = .ok additionalDefault := by
      unfold get_additional_recurring_indicators
      simp only [hd0]
      rw [if_pos (by simpa [List.isEmpty_iff_eq_nil] using hm)]
    rw [hdef]
    simp +decide [featOf, additionalDefault, hm]
  · obtain ⟨ds, hds, _⟩ := parseDatesE_ok (merchantOf t all)
      (fun x hx => hall x (List.mem_of_mem_filter hx))
    obtain ⟨dayStd, heval⟩ := get_additional_eval t all d0 ds hd0 hm hds
    rw [heval]
    simp +decide only [featOf, List.find?, Option.map_some]
    cases hsig : refundSignal t all
    · simp [bint, hm, hsig]
    · simp [bint, hm, hsig]

/-- C2 amended witness: at a concrete input whose history holds the current
transaction itself and the refund entry, the amended statement applies and
the feature evaluates to 1. -/
theorem c2_amended_witness : WellFormedInput txAcme [txAcme, txRefund] ∧
    featOf (get_additional_recurring_indicators txAcme [txAcme, txRefund])
        "is_canceled_or_refunded" =
      some (.i (if merchantOf txAcme [txAcme, txRefund] ≠ []
          ∧ refundSignal txAcme [txAcme, txRefund] = true then 1 else 0)) :=
  ⟨⟨by decide, by decide⟩,
    c2_canceled_or_refunded_amended txAcme [txAcme, txRefund] ⟨by decide, by decide⟩⟩

set_option maxRecDepth 40000

/-- C3 counterexample: at the decisive input, vendor "apple" and amount
4.99, the program returns false, not true: the double held for 4.99 is
5618240535144694 / 2^50, its truncation is 4, the float difference is
8917127262193584 / 2^53 = 0.99000000000000021..., and that exceeds
8917127262193582 / 2^53 = 0.98999999999999999..., the double the literal
0.99 denotes, so the upper bound of the apple rule fails. -/
theorem c3_counterexample :
    lowerStr txApple.name = "apple" ∧ txApple.amount = 4.99 ∧
    validate_recurring_transaction txApple = false ∧
    bint (validate_recurring_transaction txApple) = 0 := by
  refine ⟨by decide, by with_unfolding_all decide, by with_unfolding_all decide,
    by with_unfolding_all decide⟩

/-- C3 amended: for a transaction whose vendor name lower-cases to "apple",
amount 4.99 gives false (not true, the binary64 fractional part of 4.99
exceeds the double the literal 0.99 denotes) and amount 5.00 also gives
false; in general the apple rule accepts exactly the amounts whose binary64
fractional part lies between the doubles denoted by 0.98 and 0.99. -/
theorem c3_apple_rule_amended (t : Transaction) (h : lowerStr t.name = "apple") :
    (t.amount = 4.99 → validate_recurring_transaction t = false) ∧
    (t.amount = 5 → validate_recurring_transaction t = false) ∧
    (validate_recurring_transaction t = true ↔
      roundB64 0.98 ≤ fracPartFloat t.amount ∧ fracPartFloat t.amount ≤ roundB64 0.99) := by
  have hval : validate_recurring_transaction t =
      decide (roundB64 0.98 ≤ fracPartFloat t.amount
        ∧ fracPartFloat t.amount ≤ roundB64 0.99) := by
    unfold validate_recurring_transaction
    simp only [h]
    rfl
  refine ⟨?_, ?_, ?_⟩
  · intro ha
    rw [hval, ha]
    with_unfolding_all decide
  · intro ha
    rw [hval, ha]
    with_unfolding_all decide
  · rw [hval]
    exact decide_eq_true_iff

/-- C3 amended witness: the amended rule applies at the concrete apple
transaction of amount 4.99. -/
theorem c3_amended_witness : lowerStr txApple.name = "apple" ∧
    ((txApple.amount = 4.99 → validate_recurring_transaction txApple = false) ∧
     (txApple.amount = 5 → validate_recurring_transaction txApple = false) ∧
     (validate_recurring_transaction txApple = true ↔
       roundB64 0.98 ≤ fracPartFloat txApple.amount
         ∧ fracPartFloat txApple.amount ≤ roundB64 0.99)) :=
  ⟨by decide, c3_apple_rule_amended txApple (by decide)⟩

/-- C4 counterexample: a one-element same-vendor history in which every amount
equals the transaction amount (zero variation), yet is_fixed_amount_recurring
is 0, because the common amount is negative and max ≤ min × 1.02 then fails. -/
theorem c4_counterexample :
    merchantOf txNeg [txNeg] ≠ [] ∧
    (∀ x ∈ merchantOf txNeg [txNeg], x.amount = txNeg.amount) ∧
    featOf (get_amount_based_features txNeg [txNeg]) "is_fixed_amount_recurring"
      = some (.i 0) := by
  refine ⟨by decide, by decide, by with_unfolding_all decide⟩

/-- C4 amended: for a non-empty same-vendor history the flag is 1 iff
max_amount ≤ min_amount × 1.02 over the vendor amounts; in particular, when
every vendor amount equals the transaction amount and that amount is
non-negative, the flag is 1. -/
theorem c4_fixed_amount_amended (t : Transaction) (all : List Transaction)
    (hne : merchantOf t all ≠ []) :
    (featOf (get_amount_based_features t all) "is_fixed_amount_recurring" = some (.i 1) ↔
      listMaxQ ((merchantOf t all).map (fun x => x.amount))
        ≤ listMinQ ((merchantOf t all).map (fun x => x.amount)) * 1.02) ∧
    ((∀ x ∈ merchantOf t all, x.amount = t.amount) → 0 ≤ t.amount →
      featOf (get_amount_based_features t all) "is_fixed_amount_recurring"
        = some (.i 1)) := by
  rw [get_amount_based_eval t all hne]
  have hfeat : featOf (Except.ok
      [("is_fixed_amount_recurring",
          FVal.i (bint (decide (listMaxQ ((merchantOf t all).map (fun x => x.amount))
            ≤ listMinQ ((merchantOf t all).map (fun x => x.amount)) * 1.02)))),
       ("amount_fluctuation_range",
          FVal.q (listMaxQ ((merchantOf t all).map (fun x => x.amount))
            - listMinQ ((merchantOf t all).map (fun x => x.amount)))),
       ("is_small_subscription", FVal.i (bint (decide (3.99 ≤ t.amount ∧ t.amount ≤ 14.99)))),
       ("is_mid_sized_subscription", FVal.i (bint (decide (15 ≤ t.amount ∧ t.amount ≤ 49.99)))),
       ("is_large_recurring_payment", FVal.i (bint (decide (50 ≤ t.amount))))] : Except PyError _)
      "is_fixed_amount_recurring" =
      some (FVal.i (bint (decide (listMaxQ ((merchantOf t all).map (fun x => x.amount))
        ≤ listMinQ ((merchantOf t all).map (fun x => x.amount)) * 1.02)))) := by
    simp +decide [featOf, List.find?]
  rw [hfeat]
  have hmap : (merchantOf t all).map (fun x => x.amount) ≠ [] := by
    simpa [List.map_eq_nil] using hne
  constructor
  · constructor
    · intro h1
      have := Option.some.inj h1
      have h2 := FVal.i.inj this
      exact (bint_decide_eq_one _).mp h2
    · intro h1
      rw [(bint_decide_eq_one _).mpr h1]
  · intro hall hpos
    have hconst : ∀ y ∈ (merchantOf t all).map (fun x => x.amount), y = t.amount := by
      intro y hy
      obtain ⟨x, hx, hxy⟩ := List.mem_map.mp hy
      rw [← hxy]
      exact hall x hx
    rw [listMinQ_const t.amount _ hmap hconst, listMaxQ_const t.amount _ hmap hconst]
    have hle : t.amount ≤ t.amount * 1.02 := by nlinarith
    rw [(bint_decide_eq_one _).mpr hle]

/-- C4 amended witness: the amended statement applies at a concrete
positive-amount input. -/
theorem c4_amended_witness : merchantOf txGym1 [txGym1] ≠ [] ∧
    ((featOf (get_amount_based_features txGym1 [txGym1]) "is_fixed_amount_recurring"
        = some (.i 1) ↔
      listMaxQ ((merchantOf txGym1 [txGym1]).map (fun x => x.amount))
        ≤ listMinQ ((merchantOf txGym1 [txGym1]).map (fun x => x.amount)) * 1.02) ∧
     ((∀ x ∈ merchantOf txGym1 [txGym1], x.amount = txGym1.amount) → 0 ≤ txGym1.amount →
      featOf (get_amount_based_features txGym1 [txGym1]) "is_fixed_amount_recurring"
        = some (.i 1))) :=
  ⟨by decide, c4_fixed_amount_amended txGym1 [txGym1] (by decide)⟩

/-- C5: with fewer than two same-vendor transactions the interval analyzer
returns normally with the explicit all-zero default record of ten keys. -/
theorem c5_time_based_default (t : Transaction) (all : List Transaction)
    (h : (merchantOf t all).length < 2) :
    get_time_based_recurrence_patterns t all = Except.ok
      [("is_biweekly", .i 0), ("is_semimonthly", .i 0), ("is_monthly", .i 0),
       ("is_bimonthly", .i 0), ("is_quarterly", .i 0), ("is_annual", .i 0),
       ("avg_days_between_transactions", .q 0), ("min_days_between_transactions", .i 0),
       ("max_days_between_transactions", .i 0), ("std_days_between_transactions", .q 0)] := by
  unfold get_time_based_recurrence_patterns
  rw [if_pos h]
  rfl

/-- C5 witness: the default applies at a concrete input with an empty
history. -/
theorem c5_witness : (merchantOf txAcme []).length < 2 ∧
    get_time_based_recurrence_patterns txAcme [] = Except.ok
      [("is_biweekly", .i 0), ("is_semimonthly", .i 0), ("is_monthly", .i 0),
       ("is_bimonthly", .i 0), ("is_quarterly", .i 0), ("is_annual", .i 0),
       ("avg_days_between_transactions", .q 0), ("min_days_between_transactions", .i 0),
       ("max_days_between_transactions", .i 0), ("std_days_between_transactions", .q 0)] :=
  ⟨by decide, c5_time_based_default txAcme [] (by decide)⟩

/-- C6: with at least two same-vendor transactions every cadence flag is a
boolean OR of its window test over all consecutive day gaps, and the concrete
2024-01-01 / 2024-01-15 / 2024-01-29 example yields gaps [14,14],
is_biweekly = 1, is_semimonthly = 1, average 14.0 and deviation 0.0. -/
theorem c6_cadence_flags (t : Transaction) (all : List Transaction)
    (h : WellFormedInput t all) (h2 : 2 ≤ (merchantOf t all).length) :
    (∃ ds, parseDatesE (merchantOf t all) = Except.ok ds ∧
      (∀ gs, gs = dateDiffs (sortDates ds) →
        featOf (get_time_based_recurrence_patterns t all) "is_biweekly"
          = some (.i (if ∃ g ∈ gs, g = 14 then 1 else 0)) ∧
        featOf (get_time_based_recurrence_patterns t all) "is_semimonthly"
          = some (.i (if ∃ g ∈ gs, g = 14 ∨ g = 15 ∨ g = 16 ∨ g = 17 then 1 else 0)) ∧
        featOf (get_time_based_recurrence_patterns t all) "is_monthly"
          = some (.i (if ∃ g ∈ gs, 27 ≤ g ∧ g ≤ 31 then 1 else 0)) ∧
        featOf (get_time_based_recurrence_patterns t all) "is_bimonthly"
          = some (.i (if ∃ g ∈ gs, 55 ≤ g ∧ g ≤ 65 then 1 else 0)) ∧
        featOf (get_time_based_recurrence_patterns t all) "is_quarterly"
          = some (.i (if ∃ g ∈ gs, 85 ≤ g ∧ g ≤ 95 then 1 else 0)) ∧
        featOf (get_time_based_recurrence_patterns t all) "is_annual"
          = some (.i (if ∃ g ∈ gs, 360 ≤ g ∧ g ≤ 370 then 1 else 0)))) ∧
    get_time_based_recurrence_patterns txGym1 [txGym1, txGym2, txGym3] = Except.ok
      [("is_biweekly", .i 1), ("is_semimonthly", .i 1), ("is_monthly", .i 0),
       ("is_bimonthly", .i 0), ("is_quarterly", .i 0), ("is_annual", .i 0),
       ("avg_days_between_transactions", .q 14), ("min_days_between_transactions", .i 14),
       ("max_days_between_transactions", .i 14), ("std_days_between_transactions", .q 0)] := by
  constructor
  · obtain ⟨hp, hall⟩ := h
    obtain ⟨ds, hds, _⟩ := parseDatesE_ok (merchantOf t all)
      (fun x hx => hall x (List.mem_of_mem_filter hx))
    obtain ⟨avg, mn, mx, st, heval⟩ := get_time_based_eval t all ds (by omega) hds
    refine ⟨ds, hds, ?_⟩
    intro gs hgs
    subst hgs
    rw [heval]
    have h1 : (decide (0 < (dateDiffs (sortDates ds)).count 14)) = true ↔
        (∃ g ∈ dateDiffs (sortDates ds), g = 14) := by
      rw [decide_eq_true_iff]
      constructor
      · intro hc
        exact ⟨14, List.count_pos_iff_mem.mp hc, rfl⟩
      · rintro ⟨g, hg, rfl⟩
        exact List.count_pos_iff_mem.mpr hg
    have h2m : ((dateDiffs (sortDates ds)).any
        (fun d => d == 15 || d == 16 || d == 14 || d == 17)) = true ↔
        (∃ g ∈ dateDiffs (sortDates ds), g = 14 ∨ g = 15 ∨ g = 16 ∨ g = 17) := by
      rw [List.any_eq_true]
      constructor
      · rintro ⟨g, hg, hf⟩
        refine ⟨g, hg, ?_⟩
        simp only [Bool.or_eq_true, beq_iff_eq] at hf
        tauto
      · rintro ⟨g, hg, hf⟩
        refine ⟨g, hg, ?_⟩
        simp only [Bool.or_eq_true, beq_iff_eq]
        tauto
    have h3 : ((dateDiffs (sortDates ds)).any (fun d => decide (27 ≤ d ∧ d ≤ 31))) = true ↔
        (∃ g ∈ dateDiffs (sortDates ds), 27 ≤ g ∧ g ≤ 31) := by
      rw [List.any_eq_true]
      simp only [decide_eq_true_iff]
    have h4 : ((dateDiffs (sortDates ds)).any (fun d => decide (55 ≤ d ∧ d ≤ 65))) = true ↔
        (∃ g ∈ dateDiffs (sortDates ds), 55 ≤ g ∧ g ≤ 65) := by
      rw [List.any_eq_true]
      simp only [decide_eq_true_iff]
    have h5 : ((dateDiffs (sortDates ds)).any (fun d => decide (85 ≤ d ∧ d ≤ 95))) = true ↔
        (∃ g ∈ dateDiffs (sortDates ds), 85 ≤ g ∧ g ≤ 95) := by
      rw [List.any_eq_true]
      simp only [decide_eq_true_iff]
    have h6 : ((dateDiffs (sortDates ds)).any (fun d => decide (360 ≤ d ∧ d ≤ 370))) = true ↔
        (∃ g ∈ dateDiffs (sortDates ds), 360 ≤ g ∧ g ≤ 370) := by
      rw [List.any_eq_true]
      simp only [decide_eq_true_iff]
    refine ⟨?_, ?_, ?_, ?_, ?_, ?_⟩
    · simp +decide only [featOf, List.find?, Option.map_some']
      exact congrArg (fun z => some (FVal.i z)) (bint_eq_ite _ _ h1)
    · simp +decide only [featOf, List.find?, Option.map_some']
      exact congrArg (fun z => some (FVal.i z)) (bint_eq_ite _ _ h2m)
    · simp +decide only [featOf, List.find?, Option.map_some']
      exact congrArg (fun z => some (FVal.i z)) (bint_eq_ite _ _ h3)
    · simp +decide only [featOf, List.find?, Option.map_some']
      exact congrArg (fun z => some (FVal.i z)) (bint_eq_ite _ _ h4)
    · simp +decide only [featOf, List.find?, Option.map_some']
      exact congrArg (fun z => some (FVal.i z)) (bint_eq_ite _ _ h5)
    · simp +decide only [featOf, List.find?, Option.map_some']
      exact congrArg (fun z => some (FVal.i z)) (bint_eq_ite _ _ h6)
  · with_unfolding_all decide

/-- C6 witness: the statement applies at the three 14-day-apart
transactions and yields the documented example record. -/
theorem c6_witness : WellFormedInput txGym1 [txGym1, txGym2, txGym3] ∧
    2 ≤ (merchantOf txGym1 [txGym1, txGym2, txGym3]).length ∧
    get_time_based_recurrence_patterns txGym1 [txGym1, txGym2, txGym3] = Except.ok
      [("is_biweekly", .i 1), ("is_semimonthly", .i 1), ("is_monthly", .i 0),
       ("is_bimonthly", .i 0), ("is_quarterly", .i 0), ("is_annual", .i 0),
       ("avg_days_between_transactions", .q 14), ("min_days_between_transactions", .i 14),
       ("max_days_between_transactions", .i 14), ("std_days_between_transactions", .q 0)] :=
  ⟨⟨by decide, by decide⟩, by decide,
    (c6_cadence_flags txGym1 [txGym1, txGym2, txGym3] ⟨by decide, by decide⟩ (by decide)).2⟩

/-- C7: for every well-formed transaction and every well-formed (possibly
empty) history, get_features returns normally: no embedded Python error
(statistics, min/max, indexing, zero division, date format) is reachable. -/
theorem c7_no_raise (t : Transaction) (all : List Transaction)
    (h : WellFormedInput t all) :
    ∃ fs, get_features t all = Except.ok fs := by
  obtain ⟨fs, h1, _⟩ := get_features_ok t all h
  exact ⟨fs, h1⟩

/-- C7 witness: total at a concrete well-formed input. -/
theorem c7_witness : WellFormedInput txGym1 [txGym1, txGym2] ∧
    ∃ fs, get_features txGym1 [txGym1, txGym2] = Except.ok fs :=
  ⟨⟨by decide, by decide⟩, c7_no_raise txGym1 [txGym1, txGym2] ⟨by decide, by decide⟩⟩

/-- C8: when the transaction date string does not parse as a calendar date,
get_features aborts with the date-format error and produces no feature
vector; no other error kind is produced. -/
theorem c8_bad_date_aborts (t : Transaction) (all : List Transaction)
    (hbad : parseDate t.date = none) :
    get_features t all = Except.error PyError.dateFormatError := by
  obtain ⟨pct, hpct⟩ := get_percent_ok t all
  unfold get_features
  simp only [hpct]
  rcases get_time_based_result t all with ⟨fs1, h1⟩ | h1
  · simp only [h1]
    obtain ⟨fs2, h2, _⟩ := get_amount_based_ok t all
    simp only [h2]
    have h3 : get_additional_recurring_indicators t all = .error .dateFormatError := by
      unfold get_additional_recurring_indicators
      rw [hbad]
    simp only [h3]
  · simp only [h1]

/-- C8 witness: a malformed date aborts a concrete run. -/
theorem c8_witness : parseDate txBad.date = none ∧
    get_features txBad [txGym1] = Except.error PyError.dateFormatError :=
  ⟨by decide, c8_bad_date_aborts txBad [txGym1] (by decide)⟩

/-- C9: the three-month same-vendor count never exceeds the six-month count,
because both count dates at or after a cutoff and the 90-day cutoff is never
earlier than the 180-day cutoff. -/
theorem c9_similar_counts_mono (t : Transaction) (all : List Transaction)
    (h : WellFormedInput t all) :
    ∃ a b : Int, featOf (get_additional_recurring_indicators t all)
        "n_similar_transactions_last_3_months" = some (.i a) ∧
      featOf (get_additional_recurring_indicators t all)
        "n_similar_transactions_last_6_months" = some (.i b) ∧ a ≤ b := by
  obtain ⟨hp, hall⟩ := h
  obtain ⟨d0, hd0⟩ := Option.isSome_iff_exists.mp hp
  by_cases hm : merchantOf t all = []
  · have hdef : get_additional_recurring_indicators t all = .ok additionalDefault := by
      unfold get_additional_recurring_indicators
      simp only [hd0]
      rw [if_pos (by simpa [List.isEmpty_iff_eq_nil] using hm)]
    refine ⟨0, 0, ?_, ?_, le_refl 0⟩ <;> rw [hdef] <;> decide
  · obtain ⟨ds, hds, _⟩ := parseDatesE_ok (merchantOf t all)
      (fun x hx => hall x (List.mem_of_mem_filter hx))
    obtain ⟨dayStd, heval⟩ := get_additional_eval t all d0 ds hd0 hm hds
    refine ⟨((((sortDates ds).filter
        (fun d => decide (rataDie d0 - 90 ≤ rataDie d))).length : Int)),
      ((((sortDates ds).filter
        (fun d => decide (rataDie d0 - 180 ≤ rataDie d))).length : Int)),
      ?_, ?_, ?_⟩
    · rw [heval]
      simp +decide [featOf]
    · rw [heval]
      simp +decide [featOf]
    · have hmono := length_filter_mono (fun d => decide (rataDie d0 - 90 ≤ rataDie d))
        (fun d => decide (rataDie d0 - 180 ≤ rataDie d)) (sortDates ds)
        (fun x _ hpx => by
          rw [decide_eq_true_iff] at hpx ⊢
          omega)
      exact_mod_cast hmono

/-- C9 witness: the monotonicity applies at a concrete input. -/
theorem c9_witness : WellFormedInput txGym1 [txGym1, txGym2, txGym3] ∧
    (∃ a b : Int, featOf (get_additional_recurring_indicators txGym1 [txGym1, txGym2, txGym3])
        "n_similar_transactions_last_3_months" = some (.i a) ∧
      featOf (get_additional_recurring_indicators txGym1 [txGym1, txGym2, txGym3])
        "n_similar_transactions_last_6_months" = some (.i b) ∧ a ≤ b) :=
  ⟨⟨by decide, by decide⟩,
    c9_similar_counts_mono txGym1 [txGym1, txGym2, txGym3] ⟨by decide, by decide⟩⟩

/-- C10: with at least two same-vendor transactions days_since_last_transaction
equals the current date minus the second-to-last ascending-sorted vendor date,
and at a concrete input whose current date precedes that second-to-last date
the feature is negative (-31): it is not guaranteed non-negative. -/
theorem c10_days_since_last (t : Transaction) (all : List Transaction) (d0 : Date)
    (hd0 : parseDate t.date = some d0)
    (hall : ∀ x ∈ all, (parseDate x.date).isSome = true)
    (h2 : 2 ≤ (merchantOf t all).length) :
    (∃ ds, parseDatesE (merchantOf t all) = Except.ok ds ∧
      featOf (get_day_of_week_features t all) "days_since_last_transaction" =
        some (.i (rataDie d0 - rataDie (secondLast (sortDates ds))))) ∧
    featOf (get_day_of_week_features txLate [txH2, txH3]) "days_since_last_transaction" =
      some (.i (-31)) := by
  constructor
  · obtain ⟨ds, hds, hlen⟩ := parseDatesE_ok (merchantOf t all)
      (fun x hx => hall x (List.mem_of_mem_filter hx))
    have h2p : 1 < (sortDates ds).length := by
      rw [sortDates_length, hlen]
      omega
    refine ⟨ds, hds, ?_⟩
    rw [get_day_of_week_eval t all d0 ds hd0 hds h2p]
    simp +decide [featOf]
  · with_unfolding_all decide

/-- C10 witness: the characterization applies at the concrete input that
produces the negative value. -/
theorem c10_witness : parseDate txLate.date = some ⟨2024, 1, 1⟩ ∧
    (∀ x ∈ [txH2, txH3], (parseDate x.date).isSome = true) ∧
    2 ≤ (merchantOf txLate [txH2, txH3]).length ∧
    featOf (get_day_of_week_features txLate [txH2, txH3]) "days_since_last_transaction" =
      some (.i (-31)) :=
  ⟨by decide, by decide, by decide,
    (c10_days_since_last txLate [txH2, txH3] ⟨2024, 1, 1⟩ (by decide) (by decide)
      (by decide)).2⟩

end RecurScan
